import Mathlib

/-!
Verification of the press-tracking and repeat-dispatch engine of `ir_web.py`.

The Python program manages per-(client, key) held-button sessions for an
infrared transmitter: `send_scancodes_for_key` issues one `ir-ctl` subprocess
call per scancode of a key, `repeat_thread_func` runs the per-session repeat
loop (initial send, interval-gated repeats, stop-event cancellation, max-hold
auto release, self-deregistration), and the `down`/`up`/`click` branches of
`Handler.do_POST` operate on the `active_presses` registry under `active_lock`.

The shallow embedding below mirrors those functions.  Time is modelled in
whole milliseconds on a monotonic clock starting at the session's start, sends
take zero model time, and the hardware is an oracle giving the outcome of each
`subprocess.run` invocation.  The stop event is modelled by the instant (if
any) at which it becomes set; `key.json` values are modelled as scancode-list
entries, matching the data model of loaded key tables.
-/

namespace IrWeb

/-- Outcome of one `subprocess.run(["ir-ctl", ...])` invocation: normal exit,
`CalledProcessError` with a return code, `FileNotFoundError`, or any other
exception with its message. -/
inductive TransmitOutcome where
  | ok
  | calledProcessError (returncode : Int)
  | fileNotFound
  | runError (msg : String)
deriving DecidableEq, Repr

/-- The command line built for one scancode:
`["ir-ctl", "-d", IR_DEVICE, "--scancode", f"nec:\x7bsc\x7d"]` (line 79). -/
def scancodeCmd (device sc : String) : List String :=
  ["ir-ctl", "-d", device, "--scancode", "nec:" ++ sc]

/-- The distinct return sites of `send_scancodes_for_key`, one constructor per
`return` statement (lines 72, 76, 83, 85, 87, 88). -/
inductive SendOutcome where
  | ok
  | unknownKey (key : String)
  | emptyScancodes (key : String)
  | commandFailed (cmd : List String) (returncode : Int)
  | toolMissing
  | runFailed (msg : String)
deriving DecidableEq, Repr

/-- The `(ok, msg)` pair the Python function returns for each outcome. -/
def SendOutcome.toPair : SendOutcome → Bool × String
  | .ok => (true, "OK")
  | .unknownKey k => (false, "Unknown key: " ++ k)
  | .emptyScancodes k => (false, "Key " ++ k ++ " has no scancodes")
  | .commandFailed cmd rc =>
      (false, "Command failed: " ++ String.intercalate " " cmd ++ " -> " ++ toString rc)
  | .toolMissing => (false, "ir-ctl not found (请安装 v4l-utils 或确保 ir-ctl 在 PATH)")
  | .runFailed m => (false, "执行出错: " ++ m)

/-- The boolean first component of the returned pair. -/
def SendOutcome.isOk : SendOutcome → Bool
  | .ok => true
  | _ => false

/-- Lookup in the loaded key table (`key_name in KEYMAP` / `KEYMAP[key_name]`). -/
def kmFind : List (String × List String) → String → Option (List String)
  | [], _ => none
  | (n, v) :: rest, k => if n = k then some v else kmFind rest k

/-- The `for sc in scs` loop of `send_scancodes_for_key` (lines 78-88): one
`subprocess.run` per scancode, in order, aborting at the first failure.  `hw i`
is the outcome of the i-th invocation of this call.  Returns the function's
outcome together with the list of command lines actually invoked. -/
def runScancodes (device : String) (hw : Nat → TransmitOutcome) :
    Nat → List String → SendOutcome × List (List String)
  | _, [] => (.ok, [])
  | i, sc :: rest =>
    let cmd := scancodeCmd device sc
    match hw i with
    | .ok =>
        let out := runScancodes device hw (i + 1) rest
        (out.1, cmd :: out.2)
    | .calledProcessError rc => (.commandFailed cmd rc, [cmd])
    | .fileNotFound => (.toolMissing, [cmd])
    | .runError m => (.runFailed m, [cmd])

/-- `send_scancodes_for_key` (lines 70-88): unknown-key check, empty-list
check, then the transmit loop.  Also returns the invoked command lines so that
"zero hardware calls" is expressible. -/
def send_scancodes_for_key (km : List (String × List String)) (device : String)
    (hw : Nat → TransmitOutcome) (key_name : String) :
    SendOutcome × List (List String) :=
  match kmFind km key_name with
  | none => (.unknownKey key_name, [])
  | some scs =>
    if scs = [] then (.emptyScancodes key_name, [])
    else runScancodes device hw 0 scs

/-! ## Repeat loop (`repeat_thread_func`, lines 90-106)

Time is in milliseconds from the session's `start = time.monotonic()`; the
model clock advances only inside `stop_event.wait(interval)`.  `stopAt` is the
instant at which the stop event becomes set (`none` if it never is). -/

/-- `stop_event.is_set()` at model time `t`. -/
def eventIsSet (stopAt : Option Nat) (t : Nat) : Bool :=
  match stopAt with
  | none => false
  | some s => decide (s ≤ t)

/-- `stop_event.wait(interval)` entered at model time `t`: `some u` means the
wait returned `True`, waking at time `u` (immediately if already set, at the
set instant otherwise); `none` means it timed out at `t + interval`. -/
def eventWait (stopAt : Option Nat) (t interval : Nat) : Option Nat :=
  match stopAt with
  | none => none
  | some s => if s ≤ t + interval then some (max s t) else none

/-- How the `while` loop of `repeat_thread_func` was left. -/
inductive ExitReason where
  | signaled
  | maxHold
deriving DecidableEq, Repr

/-- The `while not stop_event.is_set()` loop (lines 95-103), entered at model
time `t` with `n` sends already performed: check the stop event, check
`elapsed >= MAX_HOLD_S` (break: auto stop), `stop_event.wait(interval)`
(break if it returns `True`), else perform the next `send_scancodes_for_key`
whose outcome is `send n`.  Returns the repeat sends as (time, outcome) pairs,
the exit reason, and the exit time.  `hi` reflects
`REPEAT_INTERVAL_MS = max(1, args.repeat_interval)` (line 34). -/
def pressLoop (interval maxHoldMs : Nat) (stopAt : Option Nat)
    (send : Nat → SendOutcome) (hi : 0 < interval) (t n : Nat) :
    List (Nat × SendOutcome) × ExitReason × Nat :=
  if eventIsSet stopAt t then ([], .signaled, t)
  else if _hm : maxHoldMs ≤ t then ([], .maxHold, t)
  else
    match eventWait stopAt t interval with
    | some u => ([], .signaled, u)
    | none =>
      let out := pressLoop interval maxHoldMs stopAt send hi (t + interval) (n + 1)
      ((t + interval, send n) :: out.1, out.2.1, out.2.2)
termination_by maxHoldMs - t
decreasing_by omega

/-- Observable events of a session worker: a completed send attempt, or the
removal of the session's own registry entry. -/
inductive Ev where
  | sendEv (t : Nat) (r : SendOutcome)
  | deregEv (t : Nat) (client key : String)
deriving DecidableEq, Repr

/-- `repeat_thread_func(client_id, key_name, stop_event)` (lines 90-106) as the
trace of its events: it records `start`, performs one immediate
`send_scancodes_for_key` (not gated by the interval), runs the repeat loop,
and finally pops `(client_id, key_name)` from `active_presses` under the lock.
`hwAt n` gives the hardware outcomes of the n-th `send_scancodes_for_key`
invocation of this thread (the hardware state may differ between ticks). -/
def repeat_thread_func (km : List (String × List String)) (device : String)
    (interval maxHoldMs : Nat) (stopAt : Option Nat)
    (hwAt : Nat → Nat → TransmitOutcome) (client key : String)
    (hi : 0 < interval) : List Ev :=
  let send := fun n => (send_scancodes_for_key km device (hwAt n) key).1
  let out := pressLoop interval maxHoldMs stopAt send hi 0 1
  Ev.sendEv 0 (send 0) ::
    (out.1.map (fun p => Ev.sendEv p.1 p.2) ++ [Ev.deregEv out.2.2 client key])

/-- The schedule skeleton of an event: its instant, and whether it is a send
(`true`) or the deregistration (`false`) — everything about an event except
the send outcome it happened to record. -/
def evSkel : Ev → Nat × Bool
  | .sendEv t _ => (t, true)
  | .deregEv t _ _ => (t, false)

/-! ## Press registry and the `down` / `up` / `click` action branches
(`Handler.do_POST`, lines 144-204)

`active_presses` is a dict keyed by `(client_id, key)`; each value holds the
session's stop event and start time (the thread handle has no observable
state of its own and is represented by the spawn output of `handleDown`).
Every branch below runs entirely under `active_lock`, so it is modelled as one
atomic transition on the registry. -/

/-- The value stored in `active_presses[k]` (line 183): the stop event's
current set/unset state and the recorded `time.monotonic()` start time. -/
structure PressInfo where
  stop_event : Bool
  start_time : Nat
deriving DecidableEq, Repr

/-- The `active_presses` dict, as an association list keyed by
`(client_id, key)`. -/
abbrev Registry := List ((String × String) × PressInfo)

/-- `k in active_presses` / `active_presses.get(k)`. -/
def regFind : Registry → String × String → Option PressInfo
  | [], _ => none
  | (k, v) :: rest, key => if k = key then some v else regFind rest key

/-- `info["stop_event"].set()` for the entry at `key` (line 197). -/
def regSetStop : Registry → String × String → Registry
  | [], _ => []
  | (k, v) :: rest, key =>
      if k = key then (k, { v with stop_event := true }) :: rest
      else (k, v) :: regSetStop rest key

/-- `active_presses.pop(k, None)` (line 105): drop the entry at `key`. -/
def regPop : Registry → String × String → Registry
  | [], _ => []
  | (k, v) :: rest, key => if k = key then rest else (k, v) :: regPop rest key

/-- The keys currently registered. -/
def regKeys (reg : Registry) : List (String × String) :=
  reg.map Prod.fst

/-- Response of the `down` branch: both are HTTP 200 with `ok: true`. -/
inductive DownResp where
  | alreadyDown
  | started
deriving DecidableEq, Repr

/-- The `(ok, msg)` JSON body fields of each `down` response (lines 179, 186). -/
def DownResp.toPair : DownResp → Bool × String
  | .alreadyDown => (true, "already down")
  | .started => (true, "started")

/-- Response of the `up` branch: both are HTTP 200 with `ok: true`. -/
inductive UpResp where
  | notActive
  | stopping
deriving DecidableEq, Repr

/-- The `(ok, msg)` JSON body fields of each `up` response (lines 195, 199). -/
def UpResp.toPair : UpResp → Bool × String
  | .notActive => (true, "not active")
  | .stopping => (true, "stopping")

/-- The `action == "down"` branch (lines 174-187), as one atomic step under
`active_lock`: if `(client_id, key)` is already in `active_presses`, respond
"already down" and return; otherwise create a fresh (unset) stop event,
register the entry with the current monotonic time, start the worker thread,
and respond "started".  Returns the new registry, the response, and the pair
for which a worker thread was spawned (if any). -/
def handleDown (reg : Registry) (client key : String) (now : Nat) :
    Registry × DownResp × Option (String × String) :=
  let k := (client, key)
  match regFind reg k with
  | some _ => (reg, .alreadyDown, none)
  | none =>
      ((k, { stop_event := false, start_time := now }) :: reg, .started, some k)

/-- The `action == "up"` branch (lines 189-200), as one atomic step under
`active_lock`: if `(client_id, key)` has no entry, respond "not active" with
no side effect; otherwise set that entry's stop event (the entry itself stays
registered) and respond "stopping". -/
def handleUp (reg : Registry) (client key : String) : Registry × UpResp :=
  let k := (client, key)
  match regFind reg k with
  | none => (reg, .notActive)
  | some _ => (regSetStop reg k, .stopping)

/-- Response of the `click` branch: HTTP 200 `ok: true, msg: "sent"` on
success, HTTP 500 `ok: false` with the sender's message on failure. -/
inductive ClickResp where
  | sent
  | failed (msg : String)
deriving DecidableEq, Repr

/-- The `action == "click"` branch (lines 164-172): one synchronous
`send_scancodes_for_key`, reporting its result to the caller.  Also returns
the command lines invoked. -/
def handleClick (km : List (String × List String)) (device : String)
    (hw : Nat → TransmitOutcome) (key : String) :
    ClickResp × List (List String) :=
  let out := send_scancodes_for_key km device hw key
  if out.1.isOk then (.sent, out.2) else (.failed out.1.toPair.2, out.2)

/-! ## The scheduler as §4.2 of the specification words it, for refinement -/

/-- Modelled from the spec (§4.2 "Tick loop"): each tick first computes
`elapsed = now − T0` and exits the loop if `elapsed ≥ maxHold` (auto-release);
otherwise it waits up to `interval` for the cancellation signal, exits without
sending again if signaled during the wait, and otherwise invokes the Command
Sender once more and repeats from step 1. -/
def specTickLoop (interval maxHoldMs : Nat) (stopAt : Option Nat)
    (send : Nat → SendOutcome) (hi : 0 < interval) (t n : Nat) :
    List (Nat × SendOutcome) × ExitReason × Nat :=
  if _hm : maxHoldMs ≤ t then ([], .maxHold, t)
  else
    match eventWait stopAt t interval with
    | some u => ([], .signaled, u)
    | none =>
      let out := specTickLoop interval maxHoldMs stopAt send hi (t + interval) (n + 1)
      ((t + interval, send n) :: out.1, out.2.1, out.2.2)
termination_by maxHoldMs - t
decreasing_by omega

/-! ## Helper lemmas about the stop event and the loop -/

theorem eventWait_le {stopAt : Option Nat} {t interval u : Nat}
    (h : eventWait stopAt t interval = some u) : t ≤ u ∧ u ≤ t + interval := by
  cases stopAt with
  | none => simp [eventWait] at h
  | some s =>
      simp only [eventWait] at h
      by_cases hs : s ≤ t + interval
      · rw [if_pos hs] at h
        cases h
        omega
      · rw [if_neg hs] at h
        cases h

theorem eventWait_none_isSet {stopAt : Option Nat} {t interval : Nat}
    (h : eventWait stopAt t interval = none) :
    eventIsSet stopAt (t + interval) = false := by
  cases stopAt with
  | none => rfl
  | some s =>
      simp only [eventWait] at h
      by_cases hs : s ≤ t + interval
      · rw [if_pos hs] at h
        cases h
      · simp [eventIsSet]
        omega

theorem eventWait_some_of_not_set {s t interval u : Nat}
    (hset : eventIsSet (some s) t = false)
    (h : eventWait (some s) t interval = some u) : u = s := by
  simp only [eventIsSet, decide_eq_false_iff_not] at hset
  simp only [eventWait] at h
  by_cases hs : s ≤ t + interval
  · rw [if_pos hs] at h
    cases h
    omega
  · rw [if_neg hs] at h
    cases h

/-- Branch equation: stop event already set at loop entry. -/
theorem pressLoop_eq_isSet {interval maxHoldMs : Nat} {stopAt : Option Nat}
    {send : Nat → SendOutcome} {hi : 0 < interval} {t n : Nat}
    (hset : eventIsSet stopAt t = true) :
    pressLoop interval maxHoldMs stopAt send hi t n = ([], .signaled, t) := by
  rw [pressLoop]; simp [hset]

/-- Branch equation: max hold reached. -/
theorem pressLoop_eq_maxHold {interval maxHoldMs : Nat} {stopAt : Option Nat}
    {send : Nat → SendOutcome} {hi : 0 < interval} {t n : Nat}
    (hset : eventIsSet stopAt t = false) (hm : maxHoldMs ≤ t) :
    pressLoop interval maxHoldMs stopAt send hi t n = ([], .maxHold, t) := by
  rw [pressLoop]; simp [hset, hm]

/-- Branch equation: signaled during the interval wait. -/
theorem pressLoop_eq_waitSome {interval maxHoldMs : Nat} {stopAt : Option Nat}
    {send : Nat → SendOutcome} {hi : 0 < interval} {t n u : Nat}
    (hset : eventIsSet stopAt t = false) (hm : ¬maxHoldMs ≤ t)
    (hw : eventWait stopAt t interval = some u) :
    pressLoop interval maxHoldMs stopAt send hi t n = ([], .signaled, u) := by
  rw [pressLoop]; simp [hset, hm, hw]

/-- Branch equation: the wait timed out, one more send, loop again. -/
theorem pressLoop_eq_waitNone {interval maxHoldMs : Nat} {stopAt : Option Nat}
    {send : Nat → SendOutcome} {hi : 0 < interval} {t n : Nat}
    (hset : eventIsSet stopAt t = false) (hm : ¬maxHoldMs ≤ t)
    (hw : eventWait stopAt t interval = none) :
    pressLoop interval maxHoldMs stopAt send hi t n =
      ((t + interval, send n) ::
          (pressLoop interval maxHoldMs stopAt send hi (t + interval) (n + 1)).1,
        (pressLoop interval maxHoldMs stopAt send hi (t + interval) (n + 1)).2.1,
        (pressLoop interval maxHoldMs stopAt send hi (t + interval) (n + 1)).2.2) := by
  rw [pressLoop]; simp [hset, hm, hw]

/-- The loop's exit time is never before its entry time. -/
theorem pressLoop_exit_ge (interval maxHoldMs : Nat) (stopAt : Option Nat)
    (send : Nat → SendOutcome) (hi : 0 < interval) (t n : Nat) :
    t ≤ (pressLoop interval maxHoldMs stopAt send hi t n).2.2 := by
  induction t, n using pressLoop.induct interval maxHoldMs stopAt send hi with
  | case1 t n h => rw [pressLoop_eq_isSet h]
  | case2 t n h h2 => rw [pressLoop_eq_maxHold (by simpa using h) h2]
  | case3 t n h h2 u hw =>
      rw [pressLoop_eq_waitSome (by simpa using h) h2 hw]
      exact (eventWait_le hw).1
  | case4 t n h h2 hw ih =>
      rw [pressLoop_eq_waitNone (by simpa using h) h2 hw]
      simp only []
      omega

/-- Every repeat send happens strictly after the loop's entry time and no
later than its exit time. -/
theorem pressLoop_send_times (interval maxHoldMs : Nat) (stopAt : Option Nat)
    (send : Nat → SendOutcome) (hi : 0 < interval) (t n : Nat) :
    ∀ p ∈ (pressLoop interval maxHoldMs stopAt send hi t n).1,
      t < p.1 ∧ p.1 ≤ (pressLoop interval maxHoldMs stopAt send hi t n).2.2 := by
  induction t, n using pressLoop.induct interval maxHoldMs stopAt send hi with
  | case1 t n h => rw [pressLoop_eq_isSet h]; intro p hp; cases hp
  | case2 t n h h2 =>
      rw [pressLoop_eq_maxHold (by simpa using h) h2]; intro p hp; cases hp
  | case3 t n h h2 u hw =>
      rw [pressLoop_eq_waitSome (by simpa using h) h2 hw]; intro p hp; cases hp
  | case4 t n h h2 hw ih =>
      rw [pressLoop_eq_waitNone (by simpa using h) h2 hw]
      intro p hp
      rcases List.mem_cons.mp hp with hp | hp
      · subst hp
        refine ⟨by omega, ?_⟩
        exact pressLoop_exit_ge interval maxHoldMs stopAt send hi (t + interval) (n + 1)
      · have := ih p hp
        exact ⟨by omega, this.2⟩

/-- With no stop signal, the loop always exits by the max-hold check, at a
time in `[maxHoldMs, maxHoldMs + interval)` provided it entered before that
window's end. -/
theorem pressLoop_no_stop (interval maxHoldMs : Nat)
    (send : Nat → SendOutcome) (hi : 0 < interval) (t n : Nat) :
    (pressLoop interval maxHoldMs none send hi t n).2.1 = .maxHold ∧
      maxHoldMs ≤ (pressLoop interval maxHoldMs none send hi t n).2.2 ∧
      (t < maxHoldMs + interval →
        (pressLoop interval maxHoldMs none send hi t n).2.2 < maxHoldMs + interval) := by
  induction t, n using pressLoop.induct interval maxHoldMs none send hi with
  | case1 t n h => simp [eventIsSet] at h
  | case2 t n h h2 =>
      rw [pressLoop_eq_maxHold (by simpa using h) h2]
      exact ⟨rfl, h2, fun ht => ht⟩
  | case3 t n h h2 u hw => simp [eventWait] at hw
  | case4 t n h h2 hw ih =>
      rw [pressLoop_eq_waitNone (by simpa using h) h2 hw]
      exact ⟨ih.1, ih.2.1, fun _ => ih.2.2 (by omega)⟩

/-- The send times, exit reason and exit time of the loop do not depend on
the outcomes the sender returns. -/
theorem pressLoop_schedule_indep (interval maxHoldMs : Nat) (stopAt : Option Nat)
    (send1 send2 : Nat → SendOutcome) (hi : 0 < interval) (t n : Nat) :
    (pressLoop interval maxHoldMs stopAt send1 hi t n).1.map Prod.fst =
      (pressLoop interval maxHoldMs stopAt send2 hi t n).1.map Prod.fst ∧
    (pressLoop interval maxHoldMs stopAt send1 hi t n).2 =
      (pressLoop interval maxHoldMs stopAt send2 hi t n).2 := by
  induction t, n using pressLoop.induct interval maxHoldMs stopAt send1 hi with
  | case1 t n h =>
      rw [pressLoop_eq_isSet h, pressLoop_eq_isSet h]
      exact ⟨rfl, rfl⟩
  | case2 t n h h2 =>
      rw [pressLoop_eq_maxHold (by simpa using h) h2,
        pressLoop_eq_maxHold (by simpa using h) h2]
      exact ⟨rfl, rfl⟩
  | case3 t n h h2 u hw =>
      rw [pressLoop_eq_waitSome (by simpa using h) h2 hw,
        pressLoop_eq_waitSome (by simpa using h) h2 hw]
      exact ⟨rfl, rfl⟩
  | case4 t n h h2 hw ih =>
      rw [pressLoop_eq_waitNone (by simpa using h) h2 hw,
        pressLoop_eq_waitNone (by simpa using h) h2 hw]
      refine ⟨?_, ?_⟩
      · simp only [List.map_cons]
        rw [ih.1]
      · have := ih.2
        simp only [Prod.ext_iff] at this ⊢
        exact this

/-- Off a set stop event, the source loop and the spec's tick loop agree. -/
theorem pressLoop_eq_specTickLoop (interval maxHoldMs : Nat) (stopAt : Option Nat)
    (send : Nat → SendOutcome) (hi : 0 < interval) (t n : Nat)
    (hset : eventIsSet stopAt t = false) :
    pressLoop interval maxHoldMs stopAt send hi t n =
      specTickLoop interval maxHoldMs stopAt send hi t n := by
  induction t, n using pressLoop.induct interval maxHoldMs stopAt send hi with
  | case1 t n h => rw [h] at hset; cases hset
  | case2 t n h h2 =>
      rw [pressLoop_eq_maxHold (by simpa using h) h2, specTickLoop]
      simp [h2]
  | case3 t n h h2 u hw =>
      rw [pressLoop_eq_waitSome (by simpa using h) h2 hw, specTickLoop]
      simp [h2, hw]
  | case4 t n h h2 hw ih =>
      rw [pressLoop_eq_waitNone (by simpa using h) h2 hw, specTickLoop]
      simp only [dif_neg h2, hw]
      rw [ih (eventWait_none_isSet hw)]

/-- From time 0 with a positive max hold, the two loops agree even if the stop
event was set before the worker started. -/
theorem pressLoop_eq_specTickLoop_zero (interval maxHoldMs : Nat) (stopAt : Option Nat)
    (send : Nat → SendOutcome) (hi : 0 < interval) (hm : 0 < maxHoldMs) (n : Nat) :
    pressLoop interval maxHoldMs stopAt send hi 0 n =
      specTickLoop interval maxHoldMs stopAt send hi 0 n := by
  by_cases hset : eventIsSet stopAt 0 = true
  · cases stopAt with
    | none => simp [eventIsSet] at hset
    | some s =>
        simp only [eventIsSet, decide_eq_true_eq] at hset
        have hs0 : s = 0 := by omega
        subst hs0
        rw [pressLoop_eq_isSet (by simp [eventIsSet]), specTickLoop]
        simp [eventWait, Nat.not_le.mpr hm]
  · exact pressLoop_eq_specTickLoop interval maxHoldMs stopAt send hi 0 n
      (by simpa using hset)

/-- Once the stop event is set at instant `s`, the loop entered at a
compatible time exits no later than `max s (maxHoldMs + interval)`. -/
theorem pressLoop_stop_bound (interval maxHoldMs s : Nat)
    (send : Nat → SendOutcome) (hi : 0 < interval) (t n : Nat)
    (ht : t < s ∨ t = 0) (htm : t < maxHoldMs + interval) :
    (pressLoop interval maxHoldMs (some s) send hi t n).2.2 ≤
      max s (maxHoldMs + interval) := by
  induction t, n using pressLoop.induct interval maxHoldMs (some s) send hi with
  | case1 t n h =>
      rw [pressLoop_eq_isSet h]
      simp only [eventIsSet, decide_eq_true_eq] at h
      simp
      omega
  | case2 t n h h2 =>
      rw [pressLoop_eq_maxHold (by simpa using h) h2]
      simp
      omega
  | case3 t n h h2 u hw =>
      rw [pressLoop_eq_waitSome (by simpa using h) h2 hw]
      have hu := eventWait_some_of_not_set (by simpa using h) hw
      simp
      omega
  | case4 t n h h2 hw ih =>
      rw [pressLoop_eq_waitNone (by simpa using h) h2 hw]
      have hlt : t + interval < s := by
        simp only [eventWait] at hw
        by_cases hs : s ≤ t + interval
        · rw [if_pos hs] at hw; cases hw
        · omega
      exact ih (Or.inl hlt) (by omega)

/-! ## Helper lemmas about the registry -/

theorem regFind_eq_none_iff (reg : Registry) (k : String × String) :
    regFind reg k = none ↔ k ∉ regKeys reg := by
  induction reg with
  | nil => simp [regFind, regKeys]
  | cons hd rest ih =>
      obtain ⟨k0, v0⟩ := hd
      by_cases hk : k0 = k
      · subst hk
        simp [regFind, regKeys]
      · simp [regFind, regKeys, hk, ih, Ne.symm hk]

theorem regSetStop_find_self (reg : Registry) (k : String × String) :
    regFind (regSetStop reg k) k =
      (regFind reg k).map (fun v => { v with stop_event := true }) := by
  induction reg with
  | nil => simp [regFind, regSetStop]
  | cons hd rest ih =>
      obtain ⟨k0, v0⟩ := hd
      by_cases hk : k0 = k
      · subst hk
        simp [regFind, regSetStop]
      · simp [regFind, regSetStop, hk, ih]

theorem regSetStop_find_ne (reg : Registry) (k k2 : String × String)
    (hne : k2 ≠ k) :
    regFind (regSetStop reg k) k2 = regFind reg k2 := by
  induction reg with
  | nil => simp [regFind, regSetStop]
  | cons hd rest ih =>
      obtain ⟨k0, v0⟩ := hd
      by_cases hk : k0 = k
      · subst hk
        simp [regFind, regSetStop, Ne.symm hne]
      · by_cases hk2 : k0 = k2
        · subst hk2
          simp [regFind, regSetStop, hk]
        · simp [regFind, regSetStop, hk, hk2, ih]

theorem regSetStop_keys (reg : Registry) (k : String × String) :
    regKeys (regSetStop reg k) = regKeys reg := by
  induction reg with
  | nil => rfl
  | cons hd rest ih =>
      obtain ⟨k0, v0⟩ := hd
      by_cases hk : k0 = k
      · subst hk
        simp [regSetStop, regKeys]
      · simp [regSetStop, regKeys, hk]
        simpa [regKeys] using ih

/-! ## Helper lemmas about the command sender -/

theorem runScancodes_all_ok (device : String) (hw : Nat → TransmitOutcome) :
    ∀ (scs : List String) (i : Nat),
      (∀ j, j < scs.length → hw (i + j) = .ok) →
      runScancodes device hw i scs = (.ok, scs.map (scancodeCmd device)) := by
  intro scs
  induction scs with
  | nil => intro i _; rfl
  | cons sc rest ih =>
      intro i hok
      have h0 : hw i = .ok := by simpa using hok 0 (by simp)
      rw [runScancodes]
      simp only [h0]
      rw [ih (i + 1) (fun j hj => by
        have := hok (j + 1) (by simpa using Nat.succ_lt_succ hj)
        simpa [Nat.add_assoc, Nat.add_comm 1 j] using this)]
      simp

theorem runScancodes_first_fail (device : String) (hw : Nat → TransmitOutcome) :
    ∀ (scs : List String) (i j : Nat) (hj : j < scs.length),
      (∀ l, l < j → hw (i + l) = .ok) → hw (i + j) ≠ .ok →
      (runScancodes device hw i scs).2 =
          (scs.take (j + 1)).map (scancodeCmd device) ∧
        (runScancodes device hw i scs).1 =
          (match hw (i + j) with
           | .ok => .ok
           | .calledProcessError rc =>
               .commandFailed (scancodeCmd device (scs.get ⟨j, hj⟩)) rc
           | .fileNotFound => .toolMissing
           | .runError m => .runFailed m) := by
  intro scs
  induction scs with
  | nil => intro i j hj; cases hj
  | cons sc rest ih =>
      intro i j hj hok hbad
      cases j with
      | zero =>
          simp only [Nat.add_zero] at hbad ⊢
          rw [runScancodes]
          cases hhw : hw i with
          | ok => exact absurd hhw hbad
          | calledProcessError rc => simp [hhw]
          | fileNotFound => simp [hhw]
          | runError m => simp [hhw]
      | succ l =>
          have h0 : hw i = .ok := by simpa using hok 0 (Nat.succ_pos l)
          rw [runScancodes]
          simp only [h0]
          have hl : l < rest.length := by simpa using Nat.lt_of_succ_lt_succ hj
          have hok2 : ∀ m, m < l → hw (i + 1 + m) = .ok := fun m hm => by
            have := hok (m + 1) (Nat.succ_lt_succ hm)
            simpa [Nat.add_assoc, Nat.add_comm 1 m] using this
          have hbad2 : hw (i + 1 + l) ≠ .ok := by
            have : i + 1 + l = i + (l + 1) := by omega
            rw [this]
            exact hbad
          have := ih (i + 1) l hl hok2 hbad2
          have hidx : i + 1 + l = i + (l + 1) := by omega
          rw [hidx] at this
          refine ⟨?_, ?_⟩
          · simp only [List.take, List.map_cons]
            rw [this.1]
          · rw [this.2]
            rfl

/-! ## Claim theorems -/

/-- C6: `send_scancodes_for_key` fails with the unknown-key outcome when the
key is absent from the key table and with the empty-scancode-list outcome when
its definition is empty, and in both failure cases it performs zero hardware
transmit calls; in particular a `click` on a nonexistent key reports the
unknown-key error with zero hardware calls made. -/
theorem sendKey_unknown_or_empty (km : List (String × List String))
    (device : String) (hw : Nat → TransmitOutcome) (key : String) :
    (kmFind km key = none →
      send_scancodes_for_key km device hw key = (.unknownKey key, []) ∧
      handleClick km device hw key = (.failed ("Unknown key: " ++ key), [])) ∧
    (kmFind km key = some [] →
      send_scancodes_for_key km device hw key = (.emptyScancodes key, [])) := by
  constructor
  · intro h
    constructor
    · simp [send_scancodes_for_key, h]
    · simp [handleClick, send_scancodes_for_key, h, SendOutcome.isOk,
        SendOutcome.toPair]
  · intro h
    simp [send_scancodes_for_key, h]

/-- C6 witness: clicking `nonexistent_key` against a one-key table returns the
unknown-key error with no hardware calls. -/
theorem sendKey_unknown_or_empty_witness :
    kmFind [("power", ["0x1"])] "nonexistent_key" = none ∧
    send_scancodes_for_key [("power", ["0x1"])] "/dev/lirc0"
        (fun _ => TransmitOutcome.ok) "nonexistent_key" =
      (.unknownKey "nonexistent_key", []) ∧
    handleClick [("power", ["0x1"])] "/dev/lirc0"
        (fun _ => TransmitOutcome.ok) "nonexistent_key" =
      (.failed ("Unknown key: " ++ "nonexistent_key"), []) := by
  refine ⟨by decide, ?_, ?_⟩
  · exact ((sendKey_unknown_or_empty [("power", ["0x1"])] "/dev/lirc0"
      (fun _ => TransmitOutcome.ok) "nonexistent_key").1 (by decide)).1
  · exact ((sendKey_unknown_or_empty [("power", ["0x1"])] "/dev/lirc0"
      (fun _ => TransmitOutcome.ok) "nonexistent_key").1 (by decide)).2

/-- C7: on a known, non-empty key, `send_scancodes_for_key` attempts each
scancode once, in definition order; if every invocation succeeds it reports ok
having invoked exactly one command per scancode in order; at the first failing
invocation it stops (the invoked commands are exactly those for the first
`j + 1` scancodes, so prior successful transmissions stand and the rest are
skipped), returning the command-failed outcome carrying the exit code for a
`CalledProcessError` and the tool-missing outcome for a `FileNotFoundError`. -/
theorem sendKey_transmits_in_order (km : List (String × List String))
    (device : String) (hw : Nat → TransmitOutcome) (key : String)
    (scs : List String) (hfind : kmFind km key = some scs) (hne : scs ≠ []) :
    ((∀ j, j < scs.length → hw j = .ok) →
      send_scancodes_for_key km device hw key =
        (.ok, scs.map (scancodeCmd device))) ∧
    (∀ j (hj : j < scs.length), (∀ l, l < j → hw l = .ok) → hw j ≠ .ok →
      (send_scancodes_for_key km device hw key).2 =
          (scs.take (j + 1)).map (scancodeCmd device) ∧
      (∀ rc, hw j = .calledProcessError rc →
        (send_scancodes_for_key km device hw key).1 =
          .commandFailed (scancodeCmd device (scs.get ⟨j, hj⟩)) rc) ∧
      (hw j = .fileNotFound →
        (send_scancodes_for_key km device hw key).1 = .toolMissing)) := by
  have hrun : send_scancodes_for_key km device hw key =
      runScancodes device hw 0 scs := by
    simp [send_scancodes_for_key, hfind, hne]
  constructor
  · intro hok
    rw [hrun]
    exact runScancodes_all_ok device hw scs 0 (fun j hj => by simpa using hok j hj)
  · intro j hj hok hbad
    have h := runScancodes_first_fail device hw scs 0 j hj
      (fun l hl => by simpa using hok l hl) (by simpa using hbad)
    have h2 := h.2
    rw [Nat.zero_add] at h2
    rw [hrun]
    refine ⟨h.1, ?_, ?_⟩
    · intro rc hrc
      rw [h2, hrc]
    · intro hfn
      rw [h2, hfn]

/-- C7 witness: a two-scancode key whose second transmission exits with code 1
invokes both commands, keeps the first, skips nothing after the second, and
reports the command failure with exit code 1. -/
theorem sendKey_transmits_in_order_witness :
    kmFind [("power", ["0x1", "0x2"])] "power" = some ["0x1", "0x2"] ∧
    (["0x1", "0x2"] : List String) ≠ [] ∧
    (send_scancodes_for_key [("power", ["0x1", "0x2"])] "/dev/lirc0"
        (fun i => if i = 0 then TransmitOutcome.ok
                  else TransmitOutcome.calledProcessError 1) "power").2 =
      ((["0x1", "0x2"] : List String).take 2).map (scancodeCmd "/dev/lirc0") ∧
    (send_scancodes_for_key [("power", ["0x1", "0x2"])] "/dev/lirc0"
        (fun i => if i = 0 then TransmitOutcome.ok
                  else TransmitOutcome.calledProcessError 1) "power").1 =
      .commandFailed (scancodeCmd "/dev/lirc0" "0x2") 1 := by
  refine ⟨by decide, by decide, ?_, ?_⟩
  · exact ((sendKey_transmits_in_order [("power", ["0x1", "0x2"])] "/dev/lirc0"
      (fun i => if i = 0 then TransmitOutcome.ok
                else TransmitOutcome.calledProcessError 1) "power"
      ["0x1", "0x2"] (by decide) (by decide)).2 1 (by decide)
      (by decide) (by decide)).1
  · exact (((sendKey_transmits_in_order [("power", ["0x1", "0x2"])] "/dev/lirc0"
      (fun i => if i = 0 then TransmitOutcome.ok
                else TransmitOutcome.calledProcessError 1) "power"
      ["0x1", "0x2"] (by decide) (by decide)).2 1 (by decide)
      (by decide) (by decide)).2.1 1 (by decide))

/-- C1: at most one press session per (client_id, key) pair: a `down` while an
entry exists returns the already-down response, leaves the registry unchanged
and spawns no worker; a `down` with no entry registers exactly one new entry,
spawns exactly one worker for that pair, and responds "started"; and the
registry's keys stay pairwise distinct. -/
theorem down_at_most_one_session (reg : Registry) (client key : String)
    (now : Nat) (hnd : (regKeys reg).Nodup) :
    (∀ info, regFind reg (client, key) = some info →
      handleDown reg client key now = (reg, .alreadyDown, none)) ∧
    (regFind reg (client, key) = none →
      handleDown reg client key now =
        (((client, key), ⟨false, now⟩) :: reg, .started, some (client, key))) ∧
    (regKeys (handleDown reg client key now).1).Nodup := by
  refine ⟨?_, ?_, ?_⟩
  · intro info h
    simp [handleDown, h]
  · intro h
    simp [handleDown, h]
  · cases hfind : regFind reg (client, key) with
    | some info =>
        simp only [handleDown, hfind]
        exact hnd
    | none =>
        have hk : (client, key) ∉ regKeys reg := (regFind_eq_none_iff reg _).mp hfind
        simp only [handleDown, hfind, regKeys, List.map_cons]
        exact List.nodup_cons.mpr ⟨by simpa [regKeys] using hk,
          by simpa [regKeys] using hnd⟩

/-- C1 witness: a second `down` for a held pair is a no-op with no spawn, and
key uniqueness is preserved. -/
theorem down_at_most_one_session_witness :
    ((regKeys [(("c1", "power"), (⟨false, 0⟩ : PressInfo))]).Nodup) ∧
    handleDown [(("c1", "power"), (⟨false, 0⟩ : PressInfo))] "c1" "power" 7 =
      ([(("c1", "power"), (⟨false, 0⟩ : PressInfo))], .alreadyDown, none) ∧
    (regKeys (handleDown [(("c1", "power"), (⟨false, 0⟩ : PressInfo))]
        "c1" "power" 7).1).Nodup := by
  have h := down_at_most_one_session [(("c1", "power"), (⟨false, 0⟩ : PressInfo))]
    "c1" "power" 7 (by simp [regKeys])
  exact ⟨by simp [regKeys], h.1 ⟨false, 0⟩ (by decide), h.2.2⟩

/-- C9: the `up` branch always reports success: with an entry present it sets
that session's stop event (returning the "stopping" body), leaves the entry
registered, touches no other entry and removes nothing; with no entry it
responds "not active" and leaves the registry exactly as it was. -/
theorem up_idempotent_fire_and_forget (reg : Registry) (client key : String) :
    (UpResp.toPair (handleUp reg client key).2).1 = true ∧
    (regFind reg (client, key) = none →
      handleUp reg client key = (reg, .notActive)) ∧
    (∀ info, regFind reg (client, key) = some info →
      (handleUp reg client key).2 = .stopping ∧
      regFind (handleUp reg client key).1 (client, key) =
        some { info with stop_event := true } ∧
      (∀ k2, k2 ≠ (client, key) →
        regFind (handleUp reg client key).1 k2 = regFind reg k2) ∧
      regKeys (handleUp reg client key).1 = regKeys reg) := by
  refine ⟨?_, ?_, ?_⟩
  · cases hfind : regFind reg (client, key) with
    | some info => simp [handleUp, hfind, UpResp.toPair]
    | none => simp [handleUp, hfind, UpResp.toPair]
  · intro h
    simp [handleUp, h]
  · intro info hfind
    refine ⟨by simp [handleUp, hfind], ?_, ?_, ?_⟩
    · simp only [handleUp, hfind]
      rw [regSetStop_find_self, hfind]
      rfl
    · intro k2 hk2
      simp only [handleUp, hfind]
      exact regSetStop_find_ne reg (client, key) k2 hk2
    · simp only [handleUp, hfind]
      exact regSetStop_keys reg (client, key)

/-- C9 witness: `up` on a held pair signals it and keeps it registered; `up`
on an unheld pair changes nothing. -/
theorem up_idempotent_fire_and_forget_witness :
    regFind [(("c1", "power"), (⟨false, 3⟩ : PressInfo))] ("c1", "power") =
      some ⟨false, 3⟩ ∧
    (handleUp [(("c1", "power"), (⟨false, 3⟩ : PressInfo))] "c1" "power").2 =
      .stopping ∧
    regFind (handleUp [(("c1", "power"), (⟨false, 3⟩ : PressInfo))]
        "c1" "power").1 ("c1", "power") = some ⟨true, 3⟩ ∧
    handleUp [(("c1", "power"), (⟨false, 3⟩ : PressInfo))] "c1" "vol_up" =
      ([(("c1", "power"), (⟨false, 3⟩ : PressInfo))], .notActive) := by
  have h := (up_idempotent_fire_and_forget
    [(("c1", "power"), (⟨false, 3⟩ : PressInfo))] "c1" "power").2.2
    ⟨false, 3⟩ (by decide)
  have h2 := (up_idempotent_fire_and_forget
    [(("c1", "power"), (⟨false, 3⟩ : PressInfo))] "c1" "vol_up").2.1 (by decide)
  exact ⟨by decide, h.1, h.2.1, h2⟩

/-- C4 counterexample: a `down` against an empty key table — its initial send
fails with the unknown-key error, yet the `down` response is the fixed success
body `(ok := true, "started")`, carrying no error at all, while a `click` on
the very same key does report the failure to its caller. -/
theorem down_send_error_unreported_cex :
    (send_scancodes_for_key [] "/dev/lirc0" (fun _ => TransmitOutcome.ok)
        "power").1.isOk = false ∧
    (handleDown [] "c1" "power" 0).2.1 = DownResp.started ∧
    DownResp.toPair (handleDown [] "c1" "power" 0).2.1 = (true, "started") ∧
    handleClick [] "/dev/lirc0" (fun _ => TransmitOutcome.ok) "power" =
      (.failed ("Unknown key: " ++ "power"), []) := by
  refine ⟨rfl, rfl, rfl, ?_⟩
  simp [handleClick, send_scancodes_for_key, kmFind, SendOutcome.isOk,
    SendOutcome.toPair]

/-- C4 (amended): the `down` response never carries the initial send's result
— it is one of the two fixed `ok = true` bodies ("started" / "already down"),
computed without consulting the key table or the hardware (the worker thread
only prints the send result); `click` alone reports the send result, its
response being "sent" exactly when the send succeeded and otherwise the
failure message of that send. -/
theorem down_always_reports_started (reg : Registry) (client key : String)
    (now : Nat) :
    (DownResp.toPair (handleDown reg client key now).2.1).1 = true ∧
    ((handleDown reg client key now).2.1 = .started ∨
      (handleDown reg client key now).2.1 = .alreadyDown) ∧
    (∀ (km : List (String × List String)) (device : String)
        (hw : Nat → TransmitOutcome),
      ((handleClick km device hw key).1 = .sent ↔
        (send_scancodes_for_key km device hw key).1.isOk = true) ∧
      (∀ msg, (handleClick km device hw key).1 = .failed msg →
        msg = ((send_scancodes_for_key km device hw key).1.toPair).2)) := by
  refine ⟨?_, ?_, ?_⟩
  · cases hfind : regFind reg (client, key) with
    | some info => simp [handleDown, hfind, DownResp.toPair]
    | none => simp [handleDown, hfind, DownResp.toPair]
  · cases hfind : regFind reg (client, key) with
    | some info => right; simp [handleDown, hfind]
    | none => left; simp [handleDown, hfind]
  · intro km device hw
    constructor
    · by_cases hok : (send_scancodes_for_key km device hw key).1.isOk = true
      · simp [handleClick, hok]
      · simp [handleClick, hok]
    · intro msg hmsg
      by_cases hok : (send_scancodes_for_key km device hw key).1.isOk = true
      · simp [handleClick, hok] at hmsg
      · simp [handleClick, hok] at hmsg
        exact hmsg.symm

/-- C4 (amended) witness: with a one-key table whose transmission fails, the
`down` response is still the success body while `click` reports the failure
message. -/
theorem down_always_reports_started_witness :
    (DownResp.toPair (handleDown [] "c1" "power" 0).2.1).1 = true ∧
    ((handleClick [("power", ["0x1"])] "/dev/lirc0"
        (fun _ => TransmitOutcome.fileNotFound) "power").1 = .sent ↔ False) := by
  have h := down_always_reports_started [] "c1" "power" 0
  have h2 := (h.2.2 [("power", ["0x1"])] "/dev/lirc0"
    (fun _ => TransmitOutcome.fileNotFound)).1
  refine ⟨h.1, ?_⟩
  rw [h2]
  simp [send_scancodes_for_key, kmFind, runScancodes, SendOutcome.isOk]

/-- C10: after `up` signals a held session, the registry entry stays in place
with its stop event set, so a `down` for the same pair during this stopping
window gets the already-down response, changes nothing and spawns nothing;
the entry disappears only when the stopping worker deregisters itself, which
happens by `max s (maxHoldMs + interval)` for a stop event set at instant
`s`. -/
theorem stopping_window_blocks_redown (reg : Registry) (client key : String)
    (info : PressInfo) (now : Nat)
    (hfind : regFind reg (client, key) = some info) :
    (handleUp reg client key).2 = .stopping ∧
    regFind (handleUp reg client key).1 (client, key) =
      some { info with stop_event := true } ∧
    handleDown (handleUp reg client key).1 client key now =
      ((handleUp reg client key).1, .alreadyDown, none) ∧
    (∀ (km : List (String × List String)) (device : String)
        (interval maxHoldMs s : Nat) (hwAt : Nat → Nat → TransmitOutcome)
        (hi : 0 < interval),
      ∃ l te,
        repeat_thread_func km device interval maxHoldMs (some s) hwAt
            client key hi = l ++ [Ev.deregEv te client key] ∧
          te ≤ max s (maxHoldMs + interval)) := by
  have hfind2 : regFind (handleUp reg client key).1 (client, key) =
      some { info with stop_event := true } := by
    simp only [handleUp, hfind]
    rw [regSetStop_find_self, hfind]
    rfl
  refine ⟨by simp [handleUp, hfind], hfind2, ?_, ?_⟩
  · simp [handleDown, hfind2]
  · intro km device interval maxHoldMs s hwAt hi
    refine ⟨Ev.sendEv 0 (send_scancodes_for_key km device (hwAt 0) key).1 ::
      (pressLoop interval maxHoldMs (some s)
        (fun n => (send_scancodes_for_key km device (hwAt n) key).1)
        hi 0 1).1.map (fun p => Ev.sendEv p.1 p.2),
      (pressLoop interval maxHoldMs (some s)
        (fun n => (send_scancodes_for_key km device (hwAt n) key).1)
        hi 0 1).2.2, ?_, ?_⟩
    · simp [repeat_thread_func]
    · exact pressLoop_stop_bound interval maxHoldMs s _ hi 0 1 (Or.inr rfl)
        (by omega)

/-- C10 witness: with a held pair, `up` then `down` during the stopping window
yields the already-down response and the worker deregisters in bounded time. -/
theorem stopping_window_blocks_redown_witness :
    regFind [(("c1", "power"), (⟨false, 0⟩ : PressInfo))] ("c1", "power") =
      some ⟨false, 0⟩ ∧
    handleDown (handleUp [(("c1", "power"), (⟨false, 0⟩ : PressInfo))]
        "c1" "power").1 "c1" "power" 9 =
      ((handleUp [(("c1", "power"), (⟨false, 0⟩ : PressInfo))] "c1" "power").1,
        .alreadyDown, none) := by
  have h := stopping_window_blocks_redown
    [(("c1", "power"), (⟨false, 0⟩ : PressInfo))] "c1" "power" ⟨false, 0⟩ 9
    (by decide)
  exact ⟨by decide, h.2.2.1⟩

/-- C2: the worker thread follows exactly the specified scheduling algorithm:
one immediate send at T0 not gated by the interval, then the spec's tick loop
(§4.2: elapsed-vs-maxHold check first, then the interval wait doubling as
cancellation checkpoint, then exactly one more send per elapsed wait), and the
trace of the source loop coincides with that of `specTickLoop`, the loop as
the specification words it. -/
theorem scheduler_matches_spec (km : List (String × List String))
    (device : String) (interval maxHoldMs : Nat) (stopAt : Option Nat)
    (hwAt : Nat → Nat → TransmitOutcome) (client key : String)
    (hi : 0 < interval) (hm : 0 < maxHoldMs) :
    repeat_thread_func km device interval maxHoldMs stopAt hwAt client key hi =
      Ev.sendEv 0 (send_scancodes_for_key km device (hwAt 0) key).1 ::
        ((specTickLoop interval maxHoldMs stopAt
              (fun n => (send_scancodes_for_key km device (hwAt n) key).1)
              hi 0 1).1.map (fun p => Ev.sendEv p.1 p.2) ++
          [Ev.deregEv
            (specTickLoop interval maxHoldMs stopAt
              (fun n => (send_scancodes_for_key km device (hwAt n) key).1)
              hi 0 1).2.2 client key]) := by
  simp only [repeat_thread_func]
  rw [pressLoop_eq_specTickLoop_zero interval maxHoldMs stopAt _ hi hm]

/-- C2 witness: the refinement instantiated at interval 1 ms, max hold 1 ms,
no stop signal. -/
theorem scheduler_matches_spec_witness :
    (0 : Nat) < 1 ∧
    repeat_thread_func [] "d" 1 1 none (fun _ _ => TransmitOutcome.ok)
        "c1" "power" (by decide) =
      Ev.sendEv 0 (send_scancodes_for_key [] "d"
          (fun _ => TransmitOutcome.ok) "power").1 ::
        ((specTickLoop 1 1 none
              (fun _ => (send_scancodes_for_key [] "d"
                (fun _ => TransmitOutcome.ok) "power").1)
              (by decide) 0 1).1.map (fun p => Ev.sendEv p.1 p.2) ++
          [Ev.deregEv
            (specTickLoop 1 1 none
              (fun _ => (send_scancodes_for_key [] "d"
                (fun _ => TransmitOutcome.ok) "power").1)
              (by decide) 0 1).2.2 "c1" "power"]) :=
  ⟨by decide, scheduler_matches_spec [] "d" 1 1 none
    (fun _ _ => TransmitOutcome.ok) "c1" "power" (by decide) (by decide)⟩

/-- C3: a session whose stop event is never set self-terminates through the
max-hold check and deregisters itself: its trace ends with its own
deregistration at a time `te` with `maxHoldMs ≤ te ≤ maxHoldMs + interval`,
so no session is held indefinitely when the `up` message is lost. -/
theorem lost_up_self_terminates (km : List (String × List String))
    (device : String) (interval maxHoldMs : Nat)
    (hwAt : Nat → Nat → TransmitOutcome) (client key : String)
    (hi : 0 < interval) :
    ∃ l te,
      repeat_thread_func km device interval maxHoldMs none hwAt client key hi =
          l ++ [Ev.deregEv te client key] ∧
        maxHoldMs ≤ te ∧ te ≤ maxHoldMs + interval := by
  have hb := pressLoop_no_stop interval maxHoldMs
    (fun n => (send_scancodes_for_key km device (hwAt n) key).1) hi 0 1
  refine ⟨Ev.sendEv 0 (send_scancodes_for_key km device (hwAt 0) key).1 ::
    (pressLoop interval maxHoldMs none
      (fun n => (send_scancodes_for_key km device (hwAt n) key).1)
      hi 0 1).1.map (fun p => Ev.sendEv p.1 p.2),
    (pressLoop interval maxHoldMs none
      (fun n => (send_scancodes_for_key km device (hwAt n) key).1)
      hi 0 1).2.2, ?_, hb.2.1, ?_⟩
  · simp [repeat_thread_func]
  · exact Nat.le_of_lt (hb.2.2 (by omega))

/-- C3 witness: with interval 1 ms and max hold 1 ms and no stop signal, the
session deregisters at a time in `[1, 2]`. -/
theorem lost_up_self_terminates_witness :
    (0 : Nat) < 1 ∧
    ∃ l te,
      repeat_thread_func [] "d" 1 1 none (fun _ _ => TransmitOutcome.ok)
          "c1" "power" (by decide) =
          l ++ [Ev.deregEv te "c1" "power"] ∧
        1 ≤ te ∧ te ≤ 1 + 1 :=
  ⟨by decide, lost_up_self_terminates [] "d" 1 1
    (fun _ _ => TransmitOutcome.ok) "c1" "power" (by decide)⟩

/-- C5: on every exit path — stop signal, max-hold timeout, or a stop event
set before the worker even starts — the worker's trace ends with the removal
of its own registry entry, that removal is its last event, and every send of
the session happens no later than the removal instant. -/
theorem deregister_last_after_final_send (km : List (String × List String))
    (device : String) (interval maxHoldMs : Nat) (stopAt : Option Nat)
    (hwAt : Nat → Nat → TransmitOutcome) (client key : String)
    (hi : 0 < interval) :
    ∃ l te,
      repeat_thread_func km device interval maxHoldMs stopAt hwAt client key hi =
          l ++ [Ev.deregEv te client key] ∧
        ∀ e ∈ l, ∃ ts r, e = Ev.sendEv ts r ∧ ts ≤ te := by
  refine ⟨Ev.sendEv 0 (send_scancodes_for_key km device (hwAt 0) key).1 ::
    (pressLoop interval maxHoldMs stopAt
      (fun n => (send_scancodes_for_key km device (hwAt n) key).1)
      hi 0 1).1.map (fun p => Ev.sendEv p.1 p.2),
    (pressLoop interval maxHoldMs stopAt
      (fun n => (send_scancodes_for_key km device (hwAt n) key).1)
      hi 0 1).2.2, ?_, ?_⟩
  · simp [repeat_thread_func]
  · intro e he
    rcases List.mem_cons.mp he with he | he
    · exact ⟨0, (send_scancodes_for_key km device (hwAt 0) key).1, he,
        pressLoop_exit_ge interval maxHoldMs stopAt _ hi 0 1⟩
    · rcases List.mem_map.mp he with ⟨p, hp, rfl⟩
      exact ⟨p.1, p.2, rfl,
        (pressLoop_send_times interval maxHoldMs stopAt _ hi 0 1 p hp).2⟩

/-- C5 witness: with a stop event set at instant 0, the trace still ends with
the deregistration, after all sends. -/
theorem deregister_last_after_final_send_witness :
    (0 : Nat) < 1 ∧
    ∃ l te,
      repeat_thread_func [] "d" 1 5 (some 0) (fun _ _ => TransmitOutcome.ok)
          "c1" "power" (by decide) =
          l ++ [Ev.deregEv te "c1" "power"] ∧
        ∀ e ∈ l, ∃ ts r, e = Ev.sendEv ts r ∧ ts ≤ te :=
  ⟨by decide, deregister_last_after_final_send [] "d" 1 5 (some 0)
    (fun _ _ => TransmitOutcome.ok) "c1" "power" (by decide)⟩

/-- C8: a failed send inside the repeat loop never terminates the session and
never alters its schedule: the event skeleton of the trace — every send
instant, the deregistration instant, and hence the number and timing of the
remaining ticks — is identical whatever outcomes the sends return, even
against a different key table, device or permanently failing hardware. -/
theorem loop_failures_do_not_stop_session (km1 km2 : List (String × List String))
    (device1 device2 : String) (interval maxHoldMs : Nat) (stopAt : Option Nat)
    (hwAt1 hwAt2 : Nat → Nat → TransmitOutcome) (client key : String)
    (hi : 0 < interval) :
    (repeat_thread_func km1 device1 interval maxHoldMs stopAt hwAt1
        client key hi).map evSkel =
      (repeat_thread_func km2 device2 interval maxHoldMs stopAt hwAt2
        client key hi).map evSkel := by
  have h := pressLoop_schedule_indep interval maxHoldMs stopAt
    (fun n => (send_scancodes_for_key km1 device1 (hwAt1 n) key).1)
    (fun n => (send_scancodes_for_key km2 device2 (hwAt2 n) key).1) hi 0 1
  have hmap : ∀ (l : List (Nat × SendOutcome)),
      (l.map (fun p => Ev.sendEv p.1 p.2)).map evSkel =
        (l.map Prod.fst).map (fun t => (t, true)) := by
    intro l
    rw [List.map_map, List.map_map]
    rfl
  simp only [repeat_thread_func, List.map_cons, List.map_append]
  rw [hmap, hmap, h.1, h.2]
  rfl

/-- C8 witness: an always-failing sender (no tool) yields the same schedule
skeleton as an always-succeeding one. -/
theorem loop_failures_do_not_stop_session_witness :
    (0 : Nat) < 1 ∧
    (repeat_thread_func [("power", ["0x1"])] "d" 1 3 none
        (fun _ _ => TransmitOutcome.fileNotFound) "c1" "power"
        (by decide)).map evSkel =
      (repeat_thread_func [("power", ["0x1"])] "d" 1 3 none
        (fun _ _ => TransmitOutcome.ok) "c1" "power" (by decide)).map evSkel :=
  ⟨by decide, loop_failures_do_not_stop_session [("power", ["0x1"])]
    [("power", ["0x1"])] "d" "d" 1 3 none
    (fun _ _ => TransmitOutcome.fileNotFound)
    (fun _ _ => TransmitOutcome.ok) "c1" "power" (by decide)⟩

end IrWeb
